import Mathlib

/-!
Shallow embedding of the flow-matching engine in
`src/voicebox_pytorch/voicebox_pytorch.py`.

Tensors are modelled as (nested) lists of rationals: a float tensor of
shape `(b, n)` becomes `List (List ℚ)`, a boolean mask of shape `(b, n)`
becomes `List (List Bool)`.  Random draws that the source takes from the
ambient torch RNG (`uniform_`, `coin_flip`) are passed in as explicit
arguments.  Code of external libraries (torch primitives, einops, the ODE
solvers) is modelled only as far as the code of the repository depends on its
input/output behaviour.
-/

/-- Source helper `divisible_by(num, den) = (num % den) == 0` (line 32). -/
def divisible_by (num den : ℕ) : Bool := num % den == 0

/-- Source helper `is_odd(n) = not divisible_by(n, 2)` (line 35). -/
def is_odd (n : ℕ) : Bool := !(divisible_by n 2)

/-- Model of the torch `.long()` cast on a real scalar: truncation toward zero. -/
def truncLong (q : ℚ) : ℤ := if 0 ≤ q then ⌊q⌋ else -⌊-q⌋

/-- One row of `mask_from_start_end_indices` (lines 67-73): position `p` of
`torch.arange(seq_len)` is marked iff `p >= start.long()` and `p < end.long()`. -/
def rowMask (seq_len : ℕ) (s e : ℚ) : List Bool :=
  (List.range seq_len).map fun (p : ℕ) =>
    decide (truncLong s ≤ (p : ℤ)) && decide ((p : ℤ) < truncLong e)

/-- `mask_from_start_end_indices(seq_len, start, end)` (lines 59-73): asserts
`start.shape == end.shape`, then builds one boolean row per batch element. -/
def mask_from_start_end_indices (seq_len : ℕ) (start end_ : List ℚ) :
    Except String (List (List Bool)) :=
  if start.length = end_.length then
    Except.ok (List.zipWith (fun s e => rowMask seq_len s e) start end_)
  else
    Except.error "assert start.shape == end.shape"

/-- `mask_from_frac_lengths(seq_len, frac_lengths)` (lines 75-88).
`lengths = (frac_lengths * seq_len).long()`, `max_start = seq_len - lengths`,
`start = (max_start * rand).clamp(min = 0)` for a uniform draw
`rand ∈ [0,1)` (passed in explicitly as `rands`), `end = start + lengths`. -/
def mask_from_frac_lengths (seq_len : ℕ) (frac_lengths rands : List ℚ) :
    Except String (List (List Bool)) :=
  let lengths : List ℤ := frac_lengths.map fun (f : ℚ) => truncLong (f * seq_len)
  let max_start : List ℤ := lengths.map fun (l : ℤ) => (seq_len : ℤ) - l
  let start : List ℚ :=
    List.zipWith (fun (ms : ℤ) (r : ℚ) => max ((ms : ℚ) * r) 0) max_start rands
  let end_ : List ℚ := List.zipWith (fun (s : ℚ) (l : ℤ) => s + (l : ℚ)) start lengths
  mask_from_start_end_indices seq_len start end_

/-- One row of `loss.masked_fill(mask, 0.)` (lines 391 / 548): entries where the
mask is True are replaced by `0.`. -/
def masked_fill_zero_row (lrow : List ℚ) (mrow : List Bool) : List ℚ :=
  List.zipWith (fun l m => if m then (0 : ℚ) else l) lrow mrow

/-- `mask.sum(dim = -1).clamp(min = 1e-5)` (lines 396 / 553): the per-item count
of True mask positions, clamped from below at `1e-5`. -/
def clamped_mask_counts (mask : List (List Bool)) : List ℚ :=
  mask.map fun mrow => max ((mrow.countP fun b => b : ℕ) : ℚ) (1 / 100000)

/-- The shared masked-mean reduction of both predictors (lines 391-399 and
548-556): `loss.masked_fill(mask, 0.)`, then per item
`num = loss.sum(dim=-1)`, `den = mask.sum(dim=-1).clamp(min=1e-5)`,
`loss = num / den`, and finally `loss.mean()` over the batch. -/
def masked_mean_reduce (loss : List (List ℚ)) (mask : List (List Bool)) : ℚ :=
  let filled := List.zipWith masked_fill_zero_row loss mask
  let num := filled.map List.sum
  let den := clamped_mask_counts mask
  let per := List.zipWith (fun n d => n / d) num den
  per.sum / (per.length : ℚ)

/-- Elementwise `F.mse_loss(x, target, reduction none)` (line 545) on a
`(b, n, d)` tensor: per-element squared difference. -/
def mse_loss_no_reduction (x target : List (List (List ℚ))) : List (List (List ℚ)) :=
  List.zipWith (List.zipWith (List.zipWith fun a b => (a - b) ^ 2)) x target

/-- `reduce(loss, b n d -> b n, mean)` (line 547): mean over channels. -/
def reduce_mean_channels (loss : List (List (List ℚ))) : List (List ℚ) :=
  loss.map fun row => row.map fun ch => ch.sum / (ch.length : ℚ)

/-- `F.mse_loss(x, target)` with the default mean reduction (line 543):
the plain mean of the squared differences over all positions and channels. -/
def mse_loss_mean (x target : List (List (List ℚ))) : ℚ :=
  let e := mse_loss_no_reduction x target
  let flat := (e.map fun row => (row.map List.sum).sum).sum
  let count := (e.map fun row => (row.map List.length).sum).sum
  flat / (count : ℚ)

/-- The masked loss path of `VoiceBox.forward` (lines 545-556), for given
`x` (predictions), `target` and `mask`: per-position MSE averaged over
channels, then the shared masked-mean reduction. -/
def VoiceBox_masked_loss (x target : List (List (List ℚ))) (mask : List (List Bool)) : ℚ :=
  masked_mean_reduce (reduce_mean_channels (mse_loss_no_reduction x target)) mask

/-- Elementwise `F.l1_loss(x, target, reduction none)` (line 390) on a
`(b, n)` tensor; a `None` target raises, which the model returns as an error. -/
def l1_loss_no_reduction (x : List (List ℚ)) (target : Option (List (List ℚ))) :
    Except String (List (List ℚ)) :=
  match target with
  | none => Except.error "l1_loss: target is None"
  | some t => Except.ok (List.zipWith (List.zipWith fun a b => |a - b|) x t)

/-- `F.l1_loss(x, target)` with the default mean reduction (line 388). -/
def l1_loss_mean (x target : List (List ℚ)) : ℚ :=
  let e := List.zipWith (List.zipWith fun a b => |a - b|) x target
  (e.map List.sum).sum / ((e.map List.length).sum : ℚ)

/-- Result of `DurationPredictor.forward`: either raw per-position predictions
or a scalar loss. -/
inductive DPResult where
  | preds : List (List ℚ) → DPResult
  | loss : ℚ → DPResult
deriving DecidableEq

/-- `DurationPredictor.forward` (lines 338-399), from the point where the mask
is settled.  Lines 353-358 always construct a random mask (modelled by the
explicit argument `random_mask`) when `mask` is absent.  Lines 360-385
(conditioning dropout, embedding, convolution, transformer) are abstracted
into `transformer_out`; the source never applies the `to_pred` projection of
line 314.  Line 387 tests the settled mask again, so its branch (line 388) is
unreachable; line 390 computes the elementwise L1 loss against `target`,
which raises when `target` is `None`, and lines 391-399 apply the shared
masked-mean reduction. -/
def DurationPredictor_forward (transformer_out : List (List ℚ))
    (random_mask : List (List Bool)) (target : Option (List (List ℚ)))
    (mask : Option (List (List Bool))) : Except String DPResult :=
  let mask : Option (List (List Bool)) := some (mask.getD random_mask)
  match mask with
  | none =>
      match target with
      | none => Except.error "l1_loss: target is None"
      | some t => Except.ok (DPResult.loss (l1_loss_mean transformer_out t))
  | some m =>
      match l1_loss_no_reduction transformer_out target with
      | Except.error e => Except.error e
      | Except.ok loss => Except.ok (DPResult.loss (masked_mean_reduce loss m))

/-- Elementwise tensor addition. -/
def tensor_add (a b : List ℚ) : List ℚ := List.zipWith (fun x y => x + y) a b

/-- Elementwise tensor subtraction. -/
def tensor_sub (a b : List ℚ) : List ℚ := List.zipWith (fun x y => x - y) a b

/-- Multiplication of a tensor by a scalar on the right. -/
def tensor_mul_scalar (a : List ℚ) (c : ℚ) : List ℚ := a.map fun x => x * c

/-- `DurationPredictor.forward_with_cond_scale` (lines 323-336).  The plain
forward pass is abstracted as a function of `cond_drop_prob` (the only
argument the wrapper itself varies): `logits = forward(cond_drop_prob=0)`;
if `cond_scale == 1` return `logits`, else
`null_logits = forward(cond_drop_prob=1)` and return
`null_logits + (logits - null_logits) * cond_scale`. -/
def DurationPredictor_forward_with_cond_scale (forward : ℚ → List ℚ)
    (cond_scale : ℚ) : List ℚ :=
  let logits := forward 0
  if cond_scale = 1 then logits
  else
    let null_logits := forward 1
    tensor_add null_logits (tensor_mul_scalar (tensor_sub logits null_logits) cond_scale)

/-- `VoiceBox.forward_with_cond_scale` (lines 453-466), literally identical to
the duration predictor version. -/
def VoiceBox_forward_with_cond_scale (forward : ℚ → List ℚ)
    (cond_scale : ℚ) : List ℚ :=
  let logits := forward 0
  if cond_scale = 1 then logits
  else
    let null_logits := forward 1
    tensor_add null_logits (tensor_mul_scalar (tensor_sub logits null_logits) cond_scale)

/-- The noisy interpolant of `ConditionalFlowMatcherWrapper.forward`, line 687:
`w = (1 - (1 - σ) * t) * x0 + t * x1`, per scalar element (the torch
expression is an elementwise broadcast of exactly this formula). -/
def cfm_w (sigma t x0 x1 : ℚ) : ℚ := (1 - (1 - sigma) * t) * x0 + t * x1

/-- The regression target of `ConditionalFlowMatcherWrapper.forward`, line 689:
`flow = x1 - (1 - σ) * x0`, per scalar element. -/
def cfm_flow (sigma x0 x1 : ℚ) : ℚ := x1 - (1 - sigma) * x0

/-- `LearnedSinusoidalPosEmb.__init__` (lines 95-99): asserts
`divisible_by(dim, 2)` and stores `half_dim = dim // 2` weights. -/
def LearnedSinusoidalPosEmb_init (dim : ℕ) : Except String ℕ :=
  if divisible_by dim 2 then Except.ok (dim / 2)
  else Except.error "assert divisible_by dim 2"

/-- `Transformer.__init__` (lines 218-245): asserts `divisible_by(depth, 2)`;
the remaining layer construction succeeds for any sizes. -/
def Transformer_init (depth : ℕ) : Except String Unit :=
  if divisible_by depth 2 then Except.ok ()
  else Except.error "assert divisible_by depth 2"

/-- `nn.Conv1d(dim, dim, kernel_size, groups = groups, ...)` (line 148)
constructibility: torch requires positive channel count, positive groups and
channels divisible by groups. -/
def conv1d_constructible (dim groups : ℕ) : Bool :=
  (0 < dim : Bool) && (0 < groups : Bool) && divisible_by dim groups

/-- `ConvPositionEmbed.__init__` (lines 136-150): asserts
`is_odd(kernel_size)`, defaults `groups` to `dim` (full depthwise), builds the
convolution with `padding = kernel_size // 2`. -/
def ConvPositionEmbed_init (dim kernel_size : ℕ) (groups : Option ℕ) :
    Except String ℕ :=
  if is_odd kernel_size then
    let g := groups.getD dim
    if conv1d_constructible dim g then Except.ok (kernel_size / 2)
    else Except.error "Conv1d: invalid channels/groups"
  else Except.error "assert is_odd kernel_size"

/-- The names bound at the top level of `voicebox_pytorch.py`: the imports of
lines 1-19 and the module-level definitions.  `Rearrange` (the einops torch
layer) is not among them: line 17 imports only the lowercase functions
`rearrange, repeat, reduce, pack, unpack` from einops. -/
def moduleTopLevelNames : List String :=
  ["math", "partial", "random", "torch", "nn", "Tensor", "einsum", "Module",
   "F", "to", "odeint", "beartype", "Tuple",
   "rearrange", "repeat", "reduce", "pack", "unpack", "Attend",
   "exists", "identity", "default", "divisible_by", "is_odd", "coin_flip",
   "pack_one", "unpack_one", "prob_mask_like",
   "mask_from_start_end_indices", "mask_from_frac_lengths",
   "LearnedSinusoidalPosEmb", "RotaryEmbedding", "rotate_half",
   "apply_rotary_pos_emb", "ConvPositionEmbed", "RMSNorm", "Attention",
   "FeedForward", "Transformer", "DurationPredictor", "VoiceBox",
   "ConditionalFlowMatcherWrapper"]

/-- Python name resolution against the top-level namespace of the module. -/
def nameDefined (n : String) : Bool := moduleTopLevelNames.contains n

/-- `DurationPredictor.__init__` (lines 271-317).  Lines 289-297 (embedding
table, linear projection, null-conditioning parameter) succeed for any sizes;
line 299 builds the `ConvPositionEmbed`, line 305 the `Transformer`, and
lines 314-317 build `to_pred = nn.Sequential(nn.Linear(dim, 1),
Rearrange(... 1 -> ...))`, which first has to resolve the global name
`Rearrange`. -/
def DurationPredictor_init (num_phoneme_tokens dim_phoneme_emb dim depth
    dim_head heads ff_mult conv_pos_embed_kernel_size : ℕ)
    (conv_pos_embed_groups : Option ℕ) : Except String Unit := do
  let _ ← ConvPositionEmbed_init dim conv_pos_embed_kernel_size conv_pos_embed_groups
  let _ ← Transformer_init depth
  if nameDefined "Rearrange" then Except.ok ()
  else Except.error "NameError: name Rearrange is not defined"

/-- `torch.linspace(0, 1, steps)` (line 628). -/
def linspace01 (steps : ℕ) : List ℚ :=
  if steps = 1 then [0]
  else (List.range steps).map fun i => (i : ℚ) / ((steps : ℚ) - 1)

/-- The two external ODE solver backends consumed by
`ConditionalFlowMatcherWrapper.sample`: each takes the velocity-field
callback, the initial value and the evaluation time grid and returns the
trajectory at the grid points.  `α` is the (abstract) state-tensor type; the
flat packing used by the torchode branch is a reshape and is absorbed into
the abstract state. -/
structure SampleBackends (α : Type) where
  odeint_solve : (ℚ → α → α) → α → List ℚ → List α
  torchode_solve : (ℚ → α → α) → α → List ℚ → List α

/-- `ConditionalFlowMatcherWrapper.sample` (lines 595-662).  The
guided forward pass is abstracted as `voicebox_fwcs t x phoneme_ids cond
cond_scale`; the noise draw `y0 = torch.randn_like(cond)` is an explicit
argument.  The callback `fn` closes over `phoneme_ids`, `cond` and
`cond_scale` only — the `mask` argument is accepted (line 601) but never
used in the body. -/
def ConditionalFlowMatcherWrapper_sample {α : Type} (backends : SampleBackends α)
    (use_torchode : Bool)
    (voicebox_fwcs : ℚ → α → List ℤ → α → ℚ → α)
    (phoneme_ids : List ℤ) (cond : α) (mask : Option (List (List Bool)))
    (steps : ℕ) (cond_scale : ℚ) (y0 : α) : Option α :=
  let fn : ℚ → α → α := fun t x => voicebox_fwcs t x phoneme_ids cond cond_scale
  let t := linspace01 steps
  if use_torchode = false then
    (backends.odeint_solve fn y0 t).getLast?
  else
    (backends.torchode_solve fn y0 t).getLast?

/-- C5: in `ConditionalFlowMatcherWrapper.forward`, the noisy interpolant is
`w = (1 - (1-σ)t)·x0 + t·x1` and the regression target is
`flow = x1 - (1-σ)·x0`; for `σ = 0`, `flow = x1 - x0`, `w` at `t = 0` equals
`x0`, and `w` at `t = 1` equals `x1`. -/
theorem cfm_interpolant_and_flow_target (sigma t x0 x1 : ℚ) :
    cfm_w sigma t x0 x1 = (1 - (1 - sigma) * t) * x0 + t * x1
    ∧ cfm_flow sigma x0 x1 = x1 - (1 - sigma) * x0
    ∧ cfm_flow 0 x0 x1 = x1 - x0
    ∧ cfm_w 0 0 x0 x1 = x0
    ∧ cfm_w 0 1 x0 x1 = x1 := by
  refine ⟨rfl, rfl, ?_, ?_, ?_⟩ <;> simp [cfm_w, cfm_flow]

/-- C6: `forward_with_cond_scale` called with `cond_scale = 1` returns exactly
the result of a single plain forward call with `cond_drop_prob = 0`, for both
the VoiceBox predictor and the DurationPredictor. -/
theorem forward_with_cond_scale_one_is_plain_forward
    (dp_forward vb_forward : ℚ → List ℚ) :
    DurationPredictor_forward_with_cond_scale dp_forward 1 = dp_forward 0
    ∧ VoiceBox_forward_with_cond_scale vb_forward 1 = vb_forward 0 := by
  constructor <;>
    simp [DurationPredictor_forward_with_cond_scale, VoiceBox_forward_with_cond_scale]

/-- C10: the `mask` argument of `ConditionalFlowMatcherWrapper.sample` has no
effect on the result: for any two values of `mask` (including `none`), two
runs of `sample` with the same other arguments and the same random draw `y0`
return identical outputs. -/
theorem sample_ignores_mask {α : Type} (backends : SampleBackends α)
    (use_torchode : Bool) (voicebox_fwcs : ℚ → α → List ℤ → α → ℚ → α)
    (phoneme_ids : List ℤ) (cond : α) (mask1 mask2 : Option (List (List Bool)))
    (steps : ℕ) (cond_scale : ℚ) (y0 : α) :
    ConditionalFlowMatcherWrapper_sample backends use_torchode voicebox_fwcs
      phoneme_ids cond mask1 steps cond_scale y0
    = ConditionalFlowMatcherWrapper_sample backends use_torchode voicebox_fwcs
      phoneme_ids cond mask2 steps cond_scale y0 := rfl

/-- C1: calling `DurationPredictor.forward` with `target = None` always fails
(the elementwise `F.l1_loss` of line 390 receives a `None` target) and in
particular never returns the raw per-position predictions: the source always
constructs a mask when one is absent, so the `target`-free return path the
spec describes does not exist, and the `to_pred` projection is never applied. -/
theorem durationpredictor_forward_no_target_fails
    (transformer_out : List (List ℚ)) (random_mask : List (List Bool))
    (mask : Option (List (List Bool))) :
    DurationPredictor_forward transformer_out random_mask none mask
      = Except.error "l1_loss: target is None" := rfl

/-- C8: configuration violations fail at construction time: an odd `dim`
makes `LearnedSinusoidalPosEmb.__init__` raise, an odd `depth` makes
`Transformer.__init__` raise, an even `kernel_size` makes
`ConvPositionEmbed.__init__` raise; with valid values (and a positive channel
count for the convolution) construction succeeds. -/
theorem construction_time_config_asserts
    (dim depth ks dim2 depth2 ks2 cdim : ℕ)
    (h1 : dim % 2 = 1) (h2 : depth % 2 = 1) (h3 : ks % 2 = 0)
    (h4 : dim2 % 2 = 0) (h5 : depth2 % 2 = 0) (h6 : ks2 % 2 = 1)
    (h7 : 0 < cdim) :
    LearnedSinusoidalPosEmb_init dim = Except.error "assert divisible_by dim 2"
    ∧ Transformer_init depth = Except.error "assert divisible_by depth 2"
    ∧ ConvPositionEmbed_init cdim ks none = Except.error "assert is_odd kernel_size"
    ∧ LearnedSinusoidalPosEmb_init dim2 = Except.ok (dim2 / 2)
    ∧ Transformer_init depth2 = Except.ok ()
    ∧ ConvPositionEmbed_init cdim ks2 none = Except.ok (ks2 / 2) := by
  refine ⟨?_, ?_, ?_, ?_, ?_, ?_⟩ <;>
    simp [LearnedSinusoidalPosEmb_init, Transformer_init, ConvPositionEmbed_init,
      divisible_by, is_odd, conv1d_constructible, h1, h2, h3, h4, h5, h6, h7,
      Nat.mod_self]

/-- C8 witness: concrete invalid values (dim 3, depth 3, kernel 4) raise and
concrete valid values (dim 4, depth 2, kernel 31, channel width 512) build. -/
theorem construction_time_config_asserts_witness :
    LearnedSinusoidalPosEmb_init 3 = Except.error "assert divisible_by dim 2"
    ∧ Transformer_init 3 = Except.error "assert divisible_by depth 2"
    ∧ ConvPositionEmbed_init 512 4 none = Except.error "assert is_odd kernel_size"
    ∧ LearnedSinusoidalPosEmb_init 4 = Except.ok 2
    ∧ Transformer_init 2 = Except.ok ()
    ∧ ConvPositionEmbed_init 512 31 none = Except.ok 15 :=
  construction_time_config_asserts 3 3 4 4 2 31 512
    (by decide) (by decide) (by decide) (by decide) (by decide) (by decide) (by decide)

/-- C2: every attempt to construct a `DurationPredictor` fails: construction
never succeeds for any arguments, and whenever the configuration assertions
and the convolution construction of the earlier lines pass, the failure is
the unresolved-name error on `Rearrange` (line 316), which is never imported
or defined in the module; consequently no `DurationPredictor` instance ever
exists on which a method could be called. -/
theorem durationpredictor_init_always_fails
    (num_phoneme_tokens dim_phoneme_emb dim depth dim_head heads ff_mult ks : ℕ)
    (groups : Option ℕ) :
    (∃ msg, DurationPredictor_init num_phoneme_tokens dim_phoneme_emb dim depth
      dim_head heads ff_mult ks groups = Except.error msg)
    ∧ (is_odd ks = true → divisible_by depth 2 = true →
       conv1d_constructible dim (groups.getD dim) = true →
       DurationPredictor_init num_phoneme_tokens dim_phoneme_emb dim depth
         dim_head heads ff_mult ks groups
         = Except.error "NameError: name Rearrange is not defined") := by
  have hname : nameDefined "Rearrange" = false := by decide
  constructor
  · unfold DurationPredictor_init
    cases hcv : ConvPositionEmbed_init dim ks groups with
    | error e => exact ⟨e, by simp [hcv, bind, Except.bind]⟩
    | ok v =>
      cases htr : Transformer_init depth with
      | error e => exact ⟨e, by simp [hcv, htr, bind, Except.bind]⟩
      | ok u =>
        exact ⟨"NameError: name Rearrange is not defined",
          by simp [hcv, htr, hname, bind, Except.bind]⟩
  · intro hk hd hc
    simp [DurationPredictor_init, ConvPositionEmbed_init, Transformer_init,
      hk, hd, hc, hname, bind, Except.bind]

/-- C2 witness: with the default-like arguments (kernel 31, depth 10,
width 512) all earlier constructor lines pass and the construction fails with
the unresolved-name error on `Rearrange`. -/
theorem durationpredictor_init_always_fails_witness :
    DurationPredictor_init 100 512 512 10 64 8 4 31 none
      = Except.error "NameError: name Rearrange is not defined" :=
  (durationpredictor_init_always_fails 100 512 512 10 64 8 4 31 none).2
    (by decide) (by decide) (by decide)

lemma getD_zipWith_of_lt {α β γ : Type} (f : α → β → γ) :
    ∀ (a : List α) (b : List β) (i : ℕ), i < a.length → i < b.length →
      ∀ (da : α) (db : β) (dc : γ),
        (List.zipWith f a b).getD i dc = f (a.getD i da) (b.getD i db) := by
  intro a
  induction a with
  | nil => intro b i hi; simp at hi
  | cons x xs ih =>
    intro b i hi hib da db dc
    cases b with
    | nil => simp at hib
    | cons y ys =>
      cases i with
      | zero => rfl
      | succ j =>
        simp only [List.zipWith_cons_cons, List.getD_cons_succ]
        exact ih ys j (by simpa using hi) (by simpa using hib) da db dc

lemma getD_map_of_lt {α β : Type} (f : α → β) :
    ∀ (a : List α) (i : ℕ), i < a.length → ∀ (da : α) (db : β),
      (a.map f).getD i db = f (a.getD i da) := by
  intro a
  induction a with
  | nil => intro i hi; simp at hi
  | cons x xs ih =>
    intro i hi da db
    cases i with
    | zero => rfl
    | succ j =>
      simp only [List.map_cons, List.getD_cons_succ]
      exact ih j (by simpa using hi) da db

lemma getD_range_of_lt (n i : ℕ) (h : i < n) (d : ℕ) :
    (List.range n).getD i d = i := by
  rw [List.getD_eq_getElem _ _ (by simpa using h)]
  simp

lemma truncLong_of_nonneg (q : ℚ) (h : 0 ≤ q) : truncLong q = ⌊q⌋ := by
  unfold truncLong
  rw [if_pos h]

lemma truncLong_intCast (z : ℤ) : truncLong (z : ℚ) = z := by
  unfold truncLong
  by_cases h : (0 : ℚ) ≤ (z : ℚ)
  · rw [if_pos h, Int.floor_intCast]
  · rw [if_neg h]
    rw [show (-(z : ℚ)) = ((-z : ℤ) : ℚ) by push_cast; ring, Int.floor_intCast]
    ring

lemma rowMask_length (seq_len : ℕ) (s e : ℚ) : (rowMask seq_len s e).length = seq_len := by
  simp [rowMask]

lemma rowMask_getD (seq_len : ℕ) (s e : ℚ) (p : ℕ) (hp : p < seq_len) :
    (rowMask seq_len s e).getD p false
      = (decide (truncLong s ≤ (p : ℤ)) && decide ((p : ℤ) < truncLong e)) := by
  unfold rowMask
  rw [getD_map_of_lt _ _ p (by simpa using hp) 0 false, getD_range_of_lt _ _ hp]

/-- C9: for every `seq_len` and integer tensors `start`, `end` of identical
shape with `start ≤ end ≤ seq_len` elementwise,
`mask_from_start_end_indices` returns a mask of shape `start.shape × seq_len`
that is True at position `p` exactly when `start ≤ p < end` and False
everywhere else; mismatched `start`/`end` shapes fail the assertion. -/
theorem mask_from_start_end_indices_halfopen
    (seq_len : ℕ) (start end_ : List ℤ) (hlen : start.length = end_.length)
    (hrange : ∀ i, i < start.length →
      start.getD i 0 ≤ end_.getD i 0 ∧ end_.getD i 0 ≤ (seq_len : ℤ)) :
    (∃ rows,
      mask_from_start_end_indices seq_len (start.map fun (z : ℤ) => (z : ℚ))
        (end_.map fun (z : ℤ) => (z : ℚ)) = Except.ok rows
      ∧ rows.length = start.length
      ∧ ∀ i, i < start.length →
          (rows.getD i []).length = seq_len
          ∧ ∀ p, p < seq_len →
              ((rows.getD i []).getD p false = true
                ↔ start.getD i 0 ≤ (p : ℤ) ∧ (p : ℤ) < end_.getD i 0))
    ∧ ∀ (s e : List ℚ), s.length ≠ e.length →
        mask_from_start_end_indices seq_len s e
          = Except.error "assert start.shape == end.shape" := by
  constructor
  · refine ⟨List.zipWith (fun s e => rowMask seq_len s e)
      (start.map fun (z : ℤ) => (z : ℚ)) (end_.map fun (z : ℤ) => (z : ℚ)), ?_, ?_, ?_⟩
    · unfold mask_from_start_end_indices
      rw [if_pos (by simp [hlen])]
    · simp [hlen]
    · intro i hi
      have hi2 : i < (start.map fun (z : ℤ) => (z : ℚ)).length := by simpa using hi
      have hi3 : i < (end_.map fun (z : ℤ) => (z : ℚ)).length := by
        simpa using hlen ▸ hi
      have hrow : (List.zipWith (fun s e => rowMask seq_len s e)
          (start.map fun (z : ℤ) => (z : ℚ)) (end_.map fun (z : ℤ) => (z : ℚ))).getD i []
          = rowMask seq_len ((start.getD i 0 : ℤ) : ℚ) ((end_.getD i 0 : ℤ) : ℚ) := by
        rw [getD_zipWith_of_lt _ _ _ i hi2 hi3 0 0 []]
        rw [getD_map_of_lt _ _ i hi 0 0, getD_map_of_lt _ _ i (hlen ▸ hi) 0 0]
      rw [hrow]
      refine ⟨rowMask_length _ _ _, ?_⟩
      intro p hp
      rw [rowMask_getD _ _ _ p hp, truncLong_intCast, truncLong_intCast]
      simp
  · intro s e hne
    unfold mask_from_start_end_indices
    rw [if_neg hne]

/-- C9 witness: `seq_len = 3`, `start = [1]`, `end = [2]` satisfies the
hypotheses, and the resulting mask marks exactly position 1. -/
theorem mask_from_start_end_indices_halfopen_witness :
    ∃ rows,
      mask_from_start_end_indices 3 ([(1 : ℤ)].map fun (z : ℤ) => (z : ℚ))
        ([(2 : ℤ)].map fun (z : ℤ) => (z : ℚ)) = Except.ok rows
      ∧ rows.length = [(1 : ℤ)].length
      ∧ ∀ i, i < [(1 : ℤ)].length →
          (rows.getD i []).length = 3
          ∧ ∀ p, p < 3 →
              ((rows.getD i []).getD p false = true
                ↔ [(1 : ℤ)].getD i 0 ≤ (p : ℤ) ∧ (p : ℤ) < [(2 : ℤ)].getD i 0) :=
  (mask_from_start_end_indices_halfopen 3 [1] [2] (by decide)
    (by
      intro i hi
      simp only [List.length_cons, List.length_nil] at hi
      have h0 : i = 0 := by omega
      subst h0
      decide)).1

lemma masked_fill_zero_row_sum_of_true :
    ∀ (lrow : List ℚ) (mrow : List Bool), (∀ m ∈ mrow, m = true) →
      (masked_fill_zero_row lrow mrow).sum = 0 := by
  intro lrow
  induction lrow with
  | nil => intro mrow _; simp [masked_fill_zero_row]
  | cons l ls ih =>
    intro mrow hm
    cases mrow with
    | nil => simp [masked_fill_zero_row]
    | cons m ms =>
      have hm0 : m = true := hm m (by simp)
      have hms : ∀ x ∈ ms, x = true := fun x hx => hm x (by simp [hx])
      simp [masked_fill_zero_row, hm0] at *
      simpa [masked_fill_zero_row] using ih ms hms

lemma masked_fill_zero_row_of_false :
    ∀ (lrow : List ℚ) (mrow : List Bool), lrow.length = mrow.length →
      (∀ m ∈ mrow, m = false) → masked_fill_zero_row lrow mrow = lrow := by
  intro lrow
  induction lrow with
  | nil => intro mrow _ _; simp [masked_fill_zero_row]
  | cons l ls ih =>
    intro mrow hlen hm
    cases mrow with
    | nil => simp at hlen
    | cons m ms =>
      have hm0 : m = false := hm m (by simp)
      have hms : ∀ x ∈ ms, x = false := fun x hx => hm x (by simp [hx])
      simp only [masked_fill_zero_row, List.zipWith_cons_cons, hm0, if_neg Bool.false_ne_true,
        Bool.false_eq_true, if_false]
      exact congrArg (l :: ·) (ih ms (by simpa using hlen) hms)

lemma sum_div_zipWith_of_num_zero :
    ∀ (a b : List ℚ), (∀ x ∈ a, x = 0) →
      (List.zipWith (fun n d => n / d) a b).sum = 0 := by
  intro a
  induction a with
  | nil => intro b _; simp
  | cons x xs ih =>
    intro b hx
    cases b with
    | nil => simp
    | cons y ys =>
      have h0 : x = 0 := hx x (by simp)
      have hxs : ∀ z ∈ xs, z = 0 := fun z hz => hx z (by simp [hz])
      simp [h0, ih ys hxs]

lemma num_all_zero_of_true_mask (L : List (List ℚ)) (M : List (List Bool))
    (hM : ∀ mrow ∈ M, ∀ b ∈ mrow, b = true) :
    ∀ x ∈ (List.zipWith masked_fill_zero_row L M).map List.sum, x = 0 := by
  induction L generalizing M with
  | nil => simp
  | cons l ls ih =>
    cases M with
    | nil => simp
    | cons m ms =>
      intro x hx
      simp only [List.zipWith_cons_cons, List.map_cons, List.mem_cons] at hx
      rcases hx with h | h
      · rw [h]
        exact masked_fill_zero_row_sum_of_true l m (hM m (by simp))
      · exact ih ms (fun r hr => hM r (by simp [hr])) x h

lemma clamped_mask_counts_of_false (M : List (List Bool))
    (hM : ∀ mrow ∈ M, ∀ b ∈ mrow, b = false) :
    clamped_mask_counts M = List.replicate M.length (1 / 100000) := by
  induction M with
  | nil => simp [clamped_mask_counts]
  | cons m ms ih =>
    have hm : ∀ b ∈ m, b = false := hM m (by simp)
    have hcount : m.countP (fun b => b) = 0 := by
      rw [List.countP_eq_zero]
      intro b hb
      simp [hm b hb]
    have hms := ih fun r hr => hM r (by simp [hr])
    simp only [clamped_mask_counts] at hms ⊢
    simp only [List.map_cons, List.length_cons, List.replicate_succ, hcount, Nat.cast_zero]
    rw [show ((0 : ℚ) ⊔ 1 / 100000) = 1 / 100000 from max_eq_right (by norm_num), hms]

lemma zipWith_fill_of_false_mask :
    ∀ (L : List (List ℚ)) (M : List (List Bool)),
      List.Forall₂ (fun lrow mrow => lrow.length = mrow.length) L M →
      (∀ mrow ∈ M, ∀ b ∈ mrow, b = false) →
      List.zipWith masked_fill_zero_row L M = L := by
  intro L
  induction L with
  | nil => intro M _ _; simp
  | cons l ls ih =>
    intro M hF hM
    cases M with
    | nil => cases hF
    | cons m ms =>
      cases hF with
      | cons hlen htail =>
        simp only [List.zipWith_cons_cons]
        rw [masked_fill_zero_row_of_false l m hlen (hM m (by simp)),
          ih ms htail fun r hr => hM r (by simp [hr])]

lemma zipWith_div_replicate :
    ∀ (a : List ℚ) (n : ℕ) (c : ℚ), a.length = n →
      List.zipWith (fun x d => x / d) a (List.replicate n c) = a.map fun x => x / c := by
  intro a
  induction a with
  | nil => intro n c _; simp
  | cons x xs ih =>
    intro n c hn
    cases n with
    | zero => simp at hn
    | succ k =>
      simp only [List.replicate_succ, List.zipWith_cons_cons, List.map_cons]
      rw [ih k c (by simpa using hn)]

/-- C3 (amended): in the masked reduction shared by both predictors, every
per-item denominator is clamped to at least `1e-5`, so no division by zero
occurs for any mask; with an all-True mask every position is zero-filled and
the loss is `0`; with an all-False mask the numerator is the full per-item
sum while the denominator is the `1e-5` floor, so the loss is `10^5` times
the batch-mean of the per-item total loss — not the unmasked full-sequence
mean. -/
theorem masked_loss_reduction_amended
    (L : List (List ℚ)) (M Mt Mf : List (List Bool))
    (hT : ∀ mrow ∈ Mt, ∀ b ∈ mrow, b = true)
    (hFlen : List.Forall₂ (fun lrow mrow => lrow.length = mrow.length) L Mf)
    (hF : ∀ mrow ∈ Mf, ∀ b ∈ mrow, b = false) :
    (∀ d ∈ clamped_mask_counts M, 1 / 100000 ≤ d ∧ 0 < d)
    ∧ masked_mean_reduce L Mt = 0
    ∧ masked_mean_reduce L Mf = (100000 * (L.map List.sum).sum) / (L.length : ℚ) := by
  refine ⟨?_, ?_, ?_⟩
  · intro d hd
    simp only [clamped_mask_counts, List.mem_map] at hd
    obtain ⟨mrow, _, hdm⟩ := hd
    constructor
    · rw [← hdm]; exact le_max_right _ _
    · rw [← hdm]
      exact lt_of_lt_of_le (by norm_num) (le_max_right _ _)
  · simp only [masked_mean_reduce]
    rw [sum_div_zipWith_of_num_zero _ _ (num_all_zero_of_true_mask L Mt hT)]
    simp
  · simp only [masked_mean_reduce]
    have hlen : L.length = Mf.length := hFlen.length_eq
    rw [zipWith_fill_of_false_mask L Mf hFlen hF, clamped_mask_counts_of_false Mf hF,
      zipWith_div_replicate (L.map List.sum) Mf.length (1 / 100000) (by simp [hlen])]
    have hmap : ((L.map List.sum).map fun x => x / (1 / 100000))
        = (L.map List.sum).map fun x => x * 100000 := by
      apply List.map_congr_left
      intro x _
      rw [div_eq_mul_inv, one_div, inv_inv]
    rw [hmap]
    have hsum : ((L.map List.sum).map fun x => x * 100000).sum
        = (L.map List.sum).sum * 100000 := by
      simpa using List.sum_map_mul_right (L.map List.sum) id 100000
    rw [hsum]
    simp only [List.length_map]
    rw [mul_comm]

/-- C3 counterexample: for `x = [[[1]]]`, `target = [[[0]]]` the VoiceBox loss
with the all-False mask `[[false]]` is `100000` (the per-item sum divided by
the clamped `1e-5` denominator), while the unmasked full-sequence MSE mean is
`1` — the two are not equal, refuting the claim as stated. -/
theorem masked_loss_allfalse_counterexample :
    VoiceBox_masked_loss [[[1]]] [[[0]]] [[false]] ≠ mse_loss_mean [[[1]]] [[[0]]] := by
  norm_num [VoiceBox_masked_loss, mse_loss_no_reduction, reduce_mean_channels,
    masked_mean_reduce, masked_fill_zero_row, clamped_mask_counts, mse_loss_mean,
    List.countP_cons]

/-- C3 witness: the amended statement applied at `L = [[1]]`,
all-True mask `[[true]]`, all-False mask `[[false]]`. -/
theorem masked_loss_reduction_amended_witness :
    (∀ d ∈ clamped_mask_counts [[true, false]], 1 / 100000 ≤ d ∧ 0 < d)
    ∧ masked_mean_reduce [[1]] [[true]] = 0
    ∧ masked_mean_reduce [[1]] [[false]]
        = (100000 * (([[1]] : List (List ℚ)).map List.sum).sum)
            / (([[1]] : List (List ℚ)).length : ℚ) :=
  masked_loss_reduction_amended [[1]] [[true, false]] [[true]] [[false]]
    (by simp) (by simp) (by simp)

/-- C4 counterexample: for `seq_len = 2` and `frac_lengths = [3/4]` (with the
random start draw `0`), the code truncates `frac * seq_len = 3/2` with
`.long()` and produces a True span of length `1`, whereas the claimed
`round(frac * seq_len)` is `2`. -/
theorem mask_from_frac_lengths_round_counterexample :
    mask_from_frac_lengths 2 [3/4] [0] = Except.ok [[true, false]]
    ∧ ((([true, false].countP fun b => b) : ℕ) : ℤ) ≠ round ((3/4 : ℚ) * 2) := by
  constructor
  · simp only [mask_from_frac_lengths, mask_from_start_end_indices, rowMask, truncLong,
      List.map_cons, List.map_nil, List.zipWith_cons_cons, List.zipWith_nil_right,
      List.zipWith_nil_left, List.length_cons, List.length_nil, if_true]
    norm_num [List.range_succ]
  · have hc : ([true, false].countP fun b => b) = 1 := by decide
    have hround : round ((3/4 : ℚ) * 2) = 2 := by
      norm_num [round_eq]
    rw [hc, hround]
    decide

lemma frac_span_core (seq_len : ℕ) (f r : ℚ) (hf0 : 0 < f) (hf1 : f ≤ 1)
    (hr0 : 0 ≤ r) (hr1 : r < 1) :
    ∃ s : ℕ,
      s + (truncLong (f * seq_len)).toNat ≤ seq_len
      ∧ ∀ p, p < seq_len →
          (rowMask seq_len
              (max ((((seq_len : ℤ) - truncLong (f * seq_len) : ℤ) : ℚ) * r) 0)
              (max ((((seq_len : ℤ) - truncLong (f * seq_len) : ℤ) : ℚ) * r) 0
                + ((truncLong (f * seq_len) : ℤ) : ℚ))).getD p false
            = decide (s ≤ p ∧ p < s + (truncLong (f * seq_len)).toNat) := by
  have hfs0 : (0 : ℚ) ≤ f * seq_len := mul_nonneg hf0.le (by positivity)
  have htr : truncLong (f * seq_len) = ⌊f * seq_len⌋ := truncLong_of_nonneg _ hfs0
  have hL0 : 0 ≤ truncLong (f * seq_len) := htr ▸ Int.floor_nonneg.mpr hfs0
  have hLle : truncLong (f * seq_len) ≤ (seq_len : ℤ) := by
    rw [htr]
    have h1 : f * seq_len ≤ (seq_len : ℚ) := by
      have := mul_le_of_le_one_left (show (0 : ℚ) ≤ (seq_len : ℚ) by positivity) hf1
      simpa using this
    calc ⌊f * seq_len⌋ ≤ ⌊((seq_len : ℕ) : ℚ)⌋ := Int.floor_le_floor h1
      _ = (seq_len : ℤ) := Int.floor_natCast _
  have hms0 : (0 : ℚ) ≤ (((seq_len : ℤ) - truncLong (f * seq_len) : ℤ) : ℚ) := by
    have : (0 : ℤ) ≤ (seq_len : ℤ) - truncLong (f * seq_len) := by omega
    exact_mod_cast this
  have hsq0 : (0 : ℚ) ≤ max ((((seq_len : ℤ) - truncLong (f * seq_len) : ℤ) : ℚ) * r) 0 :=
    le_max_right _ _
  have hsqle : max ((((seq_len : ℤ) - truncLong (f * seq_len) : ℤ) : ℚ) * r) 0
      ≤ (((seq_len : ℤ) - truncLong (f * seq_len) : ℤ) : ℚ) :=
    max_le (mul_le_of_le_one_right hms0 hr1.le) hms0
  have hfloor_le : ⌊max ((((seq_len : ℤ) - truncLong (f * seq_len) : ℤ) : ℚ) * r) 0⌋
      ≤ (seq_len : ℤ) - truncLong (f * seq_len) := by
    calc ⌊max ((((seq_len : ℤ) - truncLong (f * seq_len) : ℤ) : ℚ) * r) 0⌋
        ≤ ⌊(((seq_len : ℤ) - truncLong (f * seq_len) : ℤ) : ℚ)⌋ := Int.floor_le_floor hsqle
      _ = (seq_len : ℤ) - truncLong (f * seq_len) := Int.floor_intCast _
  have hfloor0 : 0 ≤ ⌊max ((((seq_len : ℤ) - truncLong (f * seq_len) : ℤ) : ℚ) * r) 0⌋ :=
    Int.floor_nonneg.mpr hsq0
  refine ⟨(⌊max ((((seq_len : ℤ) - truncLong (f * seq_len) : ℤ) : ℚ) * r) 0⌋).toNat, ?_, ?_⟩
  · omega
  · intro p hp
    have htrs : truncLong (max ((((seq_len : ℤ) - truncLong (f * seq_len) : ℤ) : ℚ) * r) 0)
        = ⌊max ((((seq_len : ℤ) - truncLong (f * seq_len) : ℤ) : ℚ) * r) 0⌋ :=
      truncLong_of_nonneg _ hsq0
    have htre : truncLong (max ((((seq_len : ℤ) - truncLong (f * seq_len) : ℤ) : ℚ) * r) 0
          + ((truncLong (f * seq_len) : ℤ) : ℚ))
        = ⌊max ((((seq_len : ℤ) - truncLong (f * seq_len) : ℤ) : ℚ) * r) 0⌋
            + truncLong (f * seq_len) := by
      rw [truncLong_of_nonneg _ (add_nonneg hsq0 (show (0 : ℚ) ≤ ((truncLong (f * seq_len) : ℤ) : ℚ) by exact_mod_cast hL0))]
      exact Int.floor_add_int _ _
    rw [rowMask_getD _ _ _ p hp, htrs, htre, ← Bool.decide_and]
    exact decide_eq_decide.mpr (by omega)

lemma mask_from_frac_lengths_ok (seq_len : ℕ) (fracs rands : List ℚ)
    (hlen : fracs.length = rands.length) :
    mask_from_frac_lengths seq_len fracs rands
      = Except.ok (List.zipWith (fun s e => rowMask seq_len s e)
          (List.zipWith (fun (ms : ℤ) (r : ℚ) => max ((ms : ℚ) * r) 0)
            ((fracs.map fun (f : ℚ) => truncLong (f * seq_len)).map
              fun (l : ℤ) => (seq_len : ℤ) - l)
            rands)
          (List.zipWith (fun (s : ℚ) (l : ℤ) => s + (l : ℚ))
            (List.zipWith (fun (ms : ℤ) (r : ℚ) => max ((ms : ℚ) * r) 0)
              ((fracs.map fun (f : ℚ) => truncLong (f * seq_len)).map
                fun (l : ℤ) => (seq_len : ℤ) - l)
              rands)
            (fracs.map fun (f : ℚ) => truncLong (f * seq_len)))) := by
  simp only [mask_from_frac_lengths, mask_from_start_end_indices]
  rw [if_pos]
  simp [hlen]

/-- C4 (amended): for every `seq_len ≥ 1` and `frac_lengths` with entries in
`(0,1]` (uniform start draws in `[0,1)`), `mask_from_frac_lengths` returns,
per batch item, a mask whose True positions form one contiguous span of
length `(frac_lengths[i] * seq_len).long()` — truncation toward zero, not
`round` — fully contained in `[0, seq_len)`. -/
theorem mask_from_frac_lengths_amended
    (seq_len : ℕ) (hseq : 1 ≤ seq_len) (fracs rands : List ℚ)
    (hlen : fracs.length = rands.length)
    (hf : ∀ f ∈ fracs, 0 < f ∧ f ≤ 1) (hr : ∀ r ∈ rands, 0 ≤ r ∧ r < 1) :
    ∃ rows, mask_from_frac_lengths seq_len fracs rands = Except.ok rows
      ∧ rows.length = fracs.length
      ∧ ∀ i, i < fracs.length →
          ∃ s : ℕ,
            s + (truncLong (fracs.getD i 0 * seq_len)).toNat ≤ seq_len
            ∧ (rows.getD i []).length = seq_len
            ∧ ∀ p, p < seq_len →
                (rows.getD i []).getD p false
                  = decide (s ≤ p ∧ p < s + (truncLong (fracs.getD i 0 * seq_len)).toNat) := by
  refine ⟨_, mask_from_frac_lengths_ok seq_len fracs rands hlen, ?_, ?_⟩
  · simp [hlen]
  · intro i hi
    have hi2 : i < rands.length := hlen ▸ hi
    have hfrmem : fracs.getD i 0 ∈ fracs := by
      rw [List.getD_eq_getElem _ _ hi]
      exact List.getElem_mem _
    have hrmem : rands.getD i 0 ∈ rands := by
      rw [List.getD_eq_getElem _ _ hi2]
      exact List.getElem_mem _
    obtain ⟨hf0, hf1⟩ := hf _ hfrmem
    obtain ⟨hr0, hr1⟩ := hr _ hrmem
    have hstart : (List.zipWith (fun (ms : ℤ) (r : ℚ) => max ((ms : ℚ) * r) 0)
          ((fracs.map fun (f : ℚ) => truncLong (f * seq_len)).map
            fun (l : ℤ) => (seq_len : ℤ) - l)
          rands).getD i 0
        = max ((((seq_len : ℤ) - truncLong (fracs.getD i 0 * seq_len) : ℤ) : ℚ)
            * rands.getD i 0) 0 := by
      rw [getD_zipWith_of_lt _ _ _ i (by simpa using hi) hi2 0 0 0,
        getD_map_of_lt _ _ i (by simpa using hi) 0 0,
        getD_map_of_lt _ _ i (by simpa using hi) 0 0]
    have hend : (List.zipWith (fun (s : ℚ) (l : ℤ) => s + (l : ℚ))
          (List.zipWith (fun (ms : ℤ) (r : ℚ) => max ((ms : ℚ) * r) 0)
            ((fracs.map fun (f : ℚ) => truncLong (f * seq_len)).map
              fun (l : ℤ) => (seq_len : ℤ) - l)
            rands)
          (fracs.map fun (f : ℚ) => truncLong (f * seq_len))).getD i 0
        = max ((((seq_len : ℤ) - truncLong (fracs.getD i 0 * seq_len) : ℤ) : ℚ)
            * rands.getD i 0) 0
          + ((truncLong (fracs.getD i 0 * seq_len) : ℤ) : ℚ) := by
      rw [getD_zipWith_of_lt _ _ _ i (by simp [hlen, hi, hi2]) (by simpa using hi) 0 0 0,
        hstart, getD_map_of_lt _ _ i (by simpa using hi) 0 0]
    have hrow : (List.zipWith (fun s e => rowMask seq_len s e)
          (List.zipWith (fun (ms : ℤ) (r : ℚ) => max ((ms : ℚ) * r) 0)
            ((fracs.map fun (f : ℚ) => truncLong (f * seq_len)).map
              fun (l : ℤ) => (seq_len : ℤ) - l)
            rands)
          (List.zipWith (fun (s : ℚ) (l : ℤ) => s + (l : ℚ))
            (List.zipWith (fun (ms : ℤ) (r : ℚ) => max ((ms : ℚ) * r) 0)
              ((fracs.map fun (f : ℚ) => truncLong (f * seq_len)).map
                fun (l : ℤ) => (seq_len : ℤ) - l)
              rands)
            (fracs.map fun (f : ℚ) => truncLong (f * seq_len)))).getD i []
        = rowMask seq_len
            (max ((((seq_len : ℤ) - truncLong (fracs.getD i 0 * seq_len) : ℤ) : ℚ)
              * rands.getD i 0) 0)
            (max ((((seq_len : ℤ) - truncLong (fracs.getD i 0 * seq_len) : ℤ) : ℚ)
              * rands.getD i 0) 0
              + ((truncLong (fracs.getD i 0 * seq_len) : ℤ) : ℚ)) := by
      rw [getD_zipWith_of_lt _ _ _ i (by simp [hlen, hi, hi2]) (by simp [hlen, hi, hi2]) 0 0 [],
        hstart, hend]
    obtain ⟨s, hbound, hspan⟩ :=
      frac_span_core seq_len (fracs.getD i 0) (rands.getD i 0) hf0 hf1 hr0 hr1
    refine ⟨s, hbound, ?_, ?_⟩
    · rw [hrow]
      exact rowMask_length _ _ _
    · intro p hp
      rw [hrow]
      exact hspan p hp

/-- C4 witness: the amended statement applied at `seq_len = 2`,
`frac_lengths = [3/4]`, random draw `[0]`. -/
theorem mask_from_frac_lengths_amended_witness :
    ∃ rows, mask_from_frac_lengths 2 [3/4] [0] = Except.ok rows
      ∧ rows.length = ([3/4] : List ℚ).length
      ∧ ∀ i, i < ([3/4] : List ℚ).length →
          ∃ s : ℕ,
            s + (truncLong (([3/4] : List ℚ).getD i 0 * 2)).toNat ≤ 2
            ∧ (rows.getD i []).length = 2
            ∧ ∀ p, p < 2 →
                (rows.getD i []).getD p false
                  = decide (s ≤ p ∧ p < s + (truncLong (([3/4] : List ℚ).getD i 0 * 2)).toNat) :=
  mask_from_frac_lengths_amended 2 (by norm_num) [3/4] [0] (by simp)
    (by intro f hfm; simp at hfm; constructor <;> norm_num [hfm])
    (by intro r hrm; simp at hrm; constructor <;> norm_num [hrm])
